import Mathlib

set_option maxRecDepth 4000

/- Verification development for the bandcamp-mcp repository.

   Embedded sources:
   * src/bandcamp_client.py — the BandcampClient extraction layer
     (search, get_album, get_artist, get_track, get_tag_page, discover,
     and the URL construction each of them performs before fetching).
   * src/server_remote.py — the presentation formatting inside call_tool
     (duration display normalization and free-text truncation).

   External capabilities are modelled abstractly:
   * BeautifulSoup: a parsed document is a function from CSS-selector
     strings to the list of matching elements, in document order; each
     element carries its stripped text, its attributes, its `.string`
     content, and its own selector search over descendants.
   * json.loads: a parameter `loads : String → Option Val`; `none` models
     a JSONDecodeError.
   * The network fetch (`_fetch`) is I/O; each operation is embedded as a
     function of the already-fetched, already-parsed document, and the URL
     it would fetch is embedded as a separate pure URL-builder. -/

/-- Python/JSON values as they occur in the client: parsed JSON data and
the record dictionaries the client assembles.  JSON numbers are modelled
as integers; no claim depends on non-integral numerics. -/
inductive Val where
  | null
  | bool (b : Bool)
  | num (n : Int)
  | str (s : String)
  | arr (a : List Val)
  | obj (o : List (String × Val))

/-- Python truthiness (`if x:`). -/
def Val.truthy : Val → Bool
  | .null => false
  | .bool b => b
  | .num n => n != 0
  | .str s => s != ""
  | .arr a => !a.isEmpty
  | .obj o => !o.isEmpty

/-- The Python exceptions the extraction code can actually raise:
`AttributeError` from calling `.get` on a non-dict value, and `TypeError`
from `json.loads(None)` or from iterating a non-iterable. -/
inductive PyErr where
  | attributeError
  | typeError
deriving DecidableEq

/-- A Python dict used as a record: an insertion-ordered association list
with unique keys. -/
abbrev Rec := List (String × Val)

/-- `d[k] = v` on a Python dict: replace the value in place if the key is
present, otherwise append the new binding. -/
def Rec.set : Rec → String → Val → Rec
  | [], k, v => [(k, v)]
  | (k', v') :: r, k, v => if k' = k then (k, v) :: r else (k', v') :: Rec.set r k v

/-- `d.get(k)` on a Python dict; an absent key gives `None` (`none`). -/
def Rec.get? : Rec → String → Option Val
  | [], _ => none
  | (k', v') :: r, k => if k' = k then some v' else Rec.get? r k

/-- Truthiness of `d.get(k)`: an absent key is `None`, which is falsy. -/
def truthyOpt : Option Val → Bool
  | none => false
  | some v => v.truthy

/-- `v.get(k, d)` in Python: raises AttributeError unless `v` is a dict. -/
def pyGet (v : Val) (k : String) (d : Val) : Except PyErr Val :=
  match v with
  | .obj o => .ok ((Rec.get? o k).getD d)
  | _ => .error .attributeError

/-- `o.get(k, d)` where `o` is statically known to be a dict (used for the
top-level JSON object after the `isinstance(data, dict)` guard). -/
def lget (o : List (String × Val)) (k : String) (d : Val) : Val :=
  (Rec.get? o k).getD d

/-- `for x in v` in Python: lists yield their elements, strings yield
one-character strings, dicts yield their keys; other values raise
TypeError. -/
def pyIter (v : Val) : Except PyErr (List Val) :=
  match v with
  | .arr a => .ok a
  | .str s => .ok (s.data.map (fun c => Val.str (String.mk [c])))
  | .obj o => .ok (o.map (fun kv => Val.str kv.1))
  | _ => .error .typeError

/-- Python `x or y` on strings: `y` when `x` is empty. -/
def pyOr (a b : String) : String := if a != "" then a else b

/-- Python `s.lower()`, exact on the ASCII range. -/
def pyLower (s : String) : String := s.map Char.toLower

/-- Models Python `str()` for f-string interpolation.  The formatter only
ever interpolates scalars here; container rendering is abbreviated. -/
def pyStr : Val → String
  | .null => "None"
  | .bool b => if b then "True" else "False"
  | .num n => toString n
  | .str s => s
  | .arr _ => "[...]"
  | .obj _ => "\x7b...\x7d"

/-- Does `pat` match at the head of `s`? -/
def leadMatch : List Char → List Char → Bool
  | [], _ => true
  | _ :: _, [] => false
  | p :: ps, c :: cs => p == c && leadMatch ps cs

/-- Python `s.replace(old, new)` on character lists: scan left to right,
replacing non-overlapping occurrences.  The client never calls it with an
empty pattern; that case is modelled as the identity. -/
def pyReplaceL (old new : List Char) : List Char → List Char
  | [] => []
  | c :: cs =>
    match old with
    | [] => c :: cs
    | o :: os =>
      if o == c && leadMatch os cs then
        new ++ pyReplaceL (o :: os) new (cs.drop os.length)
      else
        c :: pyReplaceL (o :: os) new cs
termination_by s => s.length
decreasing_by
  · simp [List.length_drop]
    omega
  · simp

/-- Python `s.replace(old, new)`. -/
def pyReplace (s old new : String) : String :=
  String.mk (pyReplaceL old.data new.data s.data)

/-- One uppercase hexadecimal digit, as used by `urllib.parse.quote`. -/
def hexDig (n : Nat) : Char :=
  if n < 10 then Char.ofNat (48 + n) else Char.ofNat (55 + n)

/-- The bytes `urllib.parse.quote_plus` never encodes: ASCII letters,
digits, and `_ . - ~`. -/
def isSafeByte (b : Nat) : Bool :=
  (48 ≤ b && b ≤ 57) || (65 ≤ b && b ≤ 90) || (97 ≤ b && b ≤ 122) ||
    b == 45 || b == 46 || b == 95 || b == 126

/-- `quote_plus` on a single byte: safe bytes pass through, a space
becomes `+`, anything else becomes `%XX` with uppercase hex. -/
def encodeByte (b : Nat) : List Char :=
  if isSafeByte b then [Char.ofNat b]
  else if b == 32 then ['+']
  else ['%', hexDig (b / 16 % 16), hexDig (b % 16)]

/-- UTF-8 encoding of one character, as a list of byte values. -/
def charUtf8 (c : Char) : List Nat :=
  let n := c.toNat
  if n < 128 then [n]
  else if n < 2048 then [192 + n / 64, 128 + n % 64]
  else if n < 65536 then [224 + n / 4096, 128 + n / 64 % 64, 128 + n % 64]
  else [240 + n / 262144, 128 + n / 4096 % 64, 128 + n / 64 % 64, 128 + n % 64]

/-- `urllib.parse.quote_plus`: percent-encode the UTF-8 bytes of `s` for a
URL query component, with spaces as `+`. -/
def quotePlus (s : String) : String :=
  String.mk ((s.data.flatMap charUtf8).flatMap encodeByte)

/-- A parsed HTML element (a BeautifulSoup `Tag`), abstractly: its
stripped text content (`get_text(strip=True)`), its attribute list, its
`.string` content (used for the JSON-LD script tag), and CSS-selector
search over its descendants (`select`). -/
inductive Elem where
  | mk (text : String) (attrs : List (String × String)) (strContent : Option String)
      (sub : String → List Elem)

def Elem.text : Elem → String
  | .mk t _ _ _ => t

def Elem.attrs : Elem → List (String × String)
  | .mk _ a _ _ => a

def Elem.strContent : Elem → Option String
  | .mk _ _ s _ => s

def Elem.sub : Elem → String → List Elem
  | .mk _ _ _ f => f

/-- Attribute lookup on a string association list. -/
def sget : List (String × String) → String → Option String
  | [], _ => none
  | (k', v') :: r, k => if k' = k then some v' else sget r k

/-- `tag.get(name, default)` in BeautifulSoup. -/
def Elem.getAttr (e : Elem) (k d : String) : String :=
  (sget e.attrs k).getD d

/-- A parsed document (the BeautifulSoup object): `soup.select` as a
function from a CSS selector to the matches, in document order. -/
abbrev Soup := String → List Elem

/-- `soup.select_one(sel)`: the first match, or `None`. -/
def selectOne (soup : Soup) (sel : String) : Option Elem :=
  (soup sel).head?

/-- `tag.select_one(sel)` relative to an element. -/
def subOne (e : Elem) (sel : String) : Option Elem :=
  (e.sub sel).head?

/- ===== src/bandcamp_client.py ===== -/

def BANDCAMP_BASE : String := "https://bandcamp.com"

/-- The selector locating the embedded schema.org JSON block
(`script[type="application/ld+json"]`). -/
def ldSelector : String := "script[type=\"application/ld+json\"]"

/-- The `type_map` dict literal in `BandcampClient.search`. -/
def type_map : List (String × String) :=
  [("all", ""), ("album", "a"), ("artist", "b"), ("track", "t"),
   ("label", "b"), ("fan", "f")]

/-- The URL `BandcampClient.search` fetches (lines 48–60). -/
def search_url (query item_type : String) (page : Int) : String :=
  let search_type := (sget type_map item_type).getD ""
  let url := BANDCAMP_BASE ++ "/search?q=" ++ quotePlus query ++ "&page=" ++ toString page
  if search_type != "" then url ++ "&item_type=" ++ search_type else url

/-- One iteration of the result loop in `search` (lines 68–103): build the
per-result dict from one `.searchresult` block. -/
def buildSearchResult (item : Elem) : Rec :=
  let r : Rec := []
  let r := r.set "type"
    (.str (match subOne item ".itemtype" with
           | some e => pyLower e.text
           | none => "unknown"))
  let r := match subOne item ".heading a" with
    | some h => (r.set "title" (.str h.text)).set "url" (.str (h.getAttr "href" ""))
    | none => r
  let r := match subOne item ".subhead" with
    | some e => r.set "subhead" (.str e.text)
    | none => r
  let r := match subOne item ".art img" with
    | some img => r.set "image" (.str (img.getAttr "src" ""))
    | none => r
  let r := r.set "tags" (.arr ((item.sub ".tag").map (fun t => Val.str t.text)))
  let r := match subOne item ".released" with
    | some e => r.set "released" (.str (pyReplace e.text "released " ""))
    | none => r
  let r := match subOne item ".genre" with
    | some e => r.set "genre" (.str (pyReplace e.text "genre: " ""))
    | none => r
  r

/-- The `results` list assembled by `search`: each `.searchresult` block is
built and kept only when its title is truthy (lines 105–106). -/
def searchResults (soup : Soup) : List Rec :=
  ((soup ".searchresult").map buildSearchResult).filter
    (fun r => truthyOpt (r.get? "title"))

/-- `BandcampClient.search`, given the parsed document fetched from
`search_url query item_type page` (lines 62–111). -/
def search (query item_type : String) (page : Int) (soup : Soup) : Rec :=
  let results := searchResults soup
  [("results", .arr (results.map Val.obj)),
   ("pagination", .obj [("page", .num page), ("items", .num results.length)])]

/-- The per-track dict built inside the track loop of `get_album`
(lines 136–143).  `t.get("item", {})` and the nested `.get` calls raise
AttributeError when their receiver is not a dict. -/
def buildLdTrack (t : Val) : Except PyErr Val :=
  match pyGet t "item" (.obj []) with
  | .error e => .error e
  | .ok item =>
  match pyGet t "position" (.num 0) with
  | .error e => .error e
  | .ok pos =>
  match pyGet item "name" (.str "") with
  | .error e => .error e
  | .ok nm =>
  match pyGet item "duration" (.str "") with
  | .error e => .error e
  | .ok du =>
  match pyGet item "@id" (.str "") with
  | .error e => .error e
  | .ok tu =>
  .ok (.obj [("position", pos), ("title", nm), ("duration", du), ("url", tu)])

/-- The track loop of `get_album`: successive appends to `album["tracks"]`;
an exception part-way discards the whole record, so the net effect on
success is the list of built tracks. -/
def ldTracks : List Val → Except PyErr (List Val)
  | [] => .ok []
  | t :: ts =>
    match buildLdTrack t with
    | .error e => .error e
    | .ok tr =>
      match ldTracks ts with
      | .error e => .error e
      | .ok trs => .ok (tr :: trs)

/-- The `if offers:` / `if publisher:` / `if in_album:` pattern (lines
146–155, 262–272): when `src` is truthy, read two nested fields with
`.get` (AttributeError when `src` is not a dict) and store them under
`k1`, `k2`. -/
def nestedPair (src : Val) (f1 f2 k1 k2 : String) (r : Rec) : Except PyErr Rec :=
  if src.truthy then
    match pyGet src f1 (.str "") with
    | .error e => .error e
    | .ok v1 =>
      match pyGet src f2 (.str "") with
      | .error e => .error e
      | .ok v2 => .ok ((r.set k1 v1).set k2 v2)
  else .ok r

/-- The body of the `isinstance(data, dict)` branch of `get_album`
(lines 126–155), over the fields `o` of the parsed JSON object. -/
def albumFromLd (o : List (String × Val)) (album0 : Rec) : Except PyErr Rec :=
  let album := album0.set "title" (lget o "name" (.str ""))
  match pyGet (lget o "byArtist" (.obj [])) "name" (.str "") with
  | .error e => .error e
  | .ok artistName =>
  let album := album.set "artist" artistName
  let album := album.set "description" (lget o "description" (.str ""))
  let album := album.set "release_date" (lget o "datePublished" (.str ""))
  let album := album.set "image" (lget o "image" (.str ""))
  let album := album.set "num_tracks" (lget o "numTracks" (.num 0))
  match pyGet (lget o "track" (.obj [])) "itemListElement" (.arr []) with
  | .error e => .error e
  | .ok tracksV =>
  match pyIter tracksV with
  | .error e => .error e
  | .ok ts =>
  match ldTracks ts with
  | .error e => .error e
  | .ok trackRecs =>
  let album := album.set "tracks" (.arr trackRecs)
  match nestedPair (lget o "offers" (.obj [])) "price" "priceCurrency" "price" "currency" album with
  | .error e => .error e
  | .ok album =>
  match nestedPair (lget o "publisher" (.obj [])) "name" "@id" "label" "label_url" album with
  | .error e => .error e
  | .ok album => .ok album

/-- The JSON-LD step shared by `get_album` and `get_track` (lines 121–158,
250–275): locate the script block; `json.loads(None)` raises TypeError
(`.string` absent); a JSONDecodeError (`loads` returns `none`) is caught
by the `except (json.JSONDecodeError, KeyError)` clause and absorbed; a
non-dict top level is skipped by the `isinstance` guard; otherwise run the
extraction body, whose AttributeErrors are NOT caught and escape. -/
def ldStep (loads : String → Option Val) (soup : Soup)
    (body : List (String × Val) → Rec → Except PyErr Rec) (r : Rec) :
    Except PyErr Rec :=
  match selectOne soup ldSelector with
  | none => .ok r
  | some json_ld =>
    match json_ld.strContent with
    | none => .error .typeError
    | some s =>
      match loads s with
      | none => .ok r
      | some (.obj o) => body o r
      | some _ => .ok r

/-- `BandcampClient.get_album` (lines 113–184), given the parsed document
fetched from `url`. -/
def get_album (loads : String → Option Val) (url : String) (soup : Soup) :
    Except PyErr Rec :=
  let album : Rec := [("url", .str url)]
  match ldStep loads soup albumFromLd album with
  | .error e => .error e
  | .ok album =>
  let album :=
    if truthyOpt (album.get? "title") then album
    else
      match selectOne soup "#name-section .trackTitle" with
      | some e => album.set "title" (.str e.text)
      | none => album
  let album :=
    if truthyOpt (album.get? "artist") then album
    else
      match selectOne soup "#name-section a" with
      | some e => album.set "artist" (.str e.text)
      | none => album
  let album := album.set "tags" (.arr ((soup ".tralbum-tags a.tag").map (fun t => Val.str t.text)))
  let album := match selectOne soup ".tralbum-about" with
    | some e => album.set "about" (.str e.text)
    | none => album
  let album := match selectOne soup ".tralbum-credits" with
    | some e => album.set "credits" (.str e.text)
    | none => album
  .ok album

/-- One discography entry of `get_artist` (lines 211–226). -/
def buildDiscoItem (urljoin : String → String → String) (url : String) (item : Elem) : Rec :=
  let a : Rec := []
  let a := match subOne item "a" with
    | some link => a.set "url" (.str (urljoin url (link.getAttr "href" "")))
    | none => a
  let a := match subOne item ".title" with
    | some t => a.set "title" (.str t.text)
    | none => a
  let a := match subOne item "img" with
    | some img => a.set "image" (.str (pyOr (img.getAttr "src" "") (img.getAttr "data-original" "")))
    | none => a
  a

/-- The `albums` list of `get_artist`: entries kept only when their title
is truthy (lines 225–226). -/
def artistDiscography (urljoin : String → String → String) (url : String) (soup : Soup) : List Rec :=
  ((soup ".music-grid-item").map (buildDiscoItem urljoin url)).filter
    (fun a => truthyOpt (a.get? "title"))

/-- `BandcampClient.get_artist` (lines 186–240), given the parsed document
fetched from `url`.  `urllib.parse.urljoin` is an external library
function, passed in as a parameter. -/
def get_artist (urljoin : String → String → String) (url : String) (soup : Soup) : Rec :=
  let artist : Rec := [("url", .str url)]
  let artist := match selectOne soup "#band-name-location .title" with
    | some e => artist.set "name" (.str e.text)
    | none => artist
  let artist := match selectOne soup "#band-name-location .location" with
    | some e => artist.set "location" (.str e.text)
    | none => artist
  let artist := match selectOne soup ".bio-text" with
    | some e => artist.set "bio" (.str e.text)
    | none => artist
  let artist := artist.set "discography"
    (.arr ((artistDiscography urljoin url soup).map Val.obj))
  let artist := artist.set "links"
    (.arr ((soup "#band-links li a").map
      (fun l => Val.obj [("name", .str l.text), ("url", .str (l.getAttr "href" ""))])))
  artist

/-- The body of the `isinstance(data, dict)` branch of `get_track`
(lines 254–272), over the fields `o` of the parsed JSON object. -/
def trackFromLd (o : List (String × Val)) (track0 : Rec) : Except PyErr Rec :=
  let track := track0.set "title" (lget o "name" (.str ""))
  match pyGet (lget o "byArtist" (.obj [])) "name" (.str "") with
  | .error e => .error e
  | .ok artistName =>
  let track := track.set "artist" artistName
  let track := track.set "duration" (lget o "duration" (.str ""))
  let track := track.set "description" (lget o "description" (.str ""))
  let track := track.set "release_date" (lget o "datePublished" (.str ""))
  let track := track.set "image" (lget o "image" (.str ""))
  match nestedPair (lget o "inAlbum" (.obj [])) "name" "@id" "album" "album_url" track with
  | .error e => .error e
  | .ok track =>
  match nestedPair (lget o "offers" (.obj [])) "price" "priceCurrency" "price" "currency" track with
  | .error e => .error e
  | .ok track => .ok track

/-- `BandcampClient.get_track` (lines 242–286), given the parsed document
fetched from `url`. -/
def get_track (loads : String → Option Val) (url : String) (soup : Soup) :
    Except PyErr Rec :=
  let track : Rec := [("url", .str url)]
  match ldStep loads soup trackFromLd track with
  | .error e => .error e
  | .ok track =>
  let track := track.set "tags" (.arr ((soup ".tralbum-tags a.tag").map (fun t => Val.str t.text)))
  let track := match selectOne soup ".lyricsText" with
    | some e => track.set "lyrics" (.str e.text)
    | none => track
  .ok track

/-- The URL `get_tag_page` fetches (line 295). -/
def tag_url (tag sort : String) (page : Int) : String :=
  BANDCAMP_BASE ++ "/tag/" ++ quotePlus tag ++ "?sort_field=" ++ sort ++ "&page=" ++ toString page

/-- One tag-page item (lines 302–319). -/
def buildTagItem (item : Elem) : Rec :=
  let a : Rec := []
  let a := match subOne item "a" with
    | some link => a.set "url" (.str (link.getAttr "href" ""))
    | none => a
  let a := match subOne item ".itemtext" with
    | some t => a.set "title" (.str t.text)
    | none => a
  let a := match subOne item ".itemsubtext" with
    | some t => a.set "artist" (.str t.text)
    | none => a
  let a := match subOne item "img" with
    | some img => a.set "image" (.str (pyOr (img.getAttr "src" "") (img.getAttr "data-original" "")))
    | none => a
  a

/-- The `albums` list of `get_tag_page`: entries kept only when their
title is truthy (lines 321–322). -/
def tagAlbums (soup : Soup) : List Rec :=
  ((soup ".item_list .item").map buildTagItem).filter
    (fun a => truthyOpt (a.get? "title"))

/-- `BandcampClient.get_tag_page` (lines 288–329), given the parsed
document fetched from `tag_url tag sort page`. -/
def get_tag_page (tag sort : String) (page : Int) (soup : Soup) : Rec :=
  [("tag", .str tag), ("sort", .str sort), ("page", .num page),
   ("albums", .arr ((tagAlbums soup).map Val.obj))]

/-- The URL `discover` fetches (lines 340–354): conditional query
parameters, in the order genre, subgenre, sort, format, location. -/
def discover_url (genre subgenre sort format : String) (location : Int) : String :=
  let params : List String := []
  let params := if genre != "" then params ++ ["g=" ++ quotePlus genre] else params
  let params := if subgenre != "" then params ++ ["s=" ++ quotePlus subgenre] else params
  let params := if sort != "" then params ++ ["sort=" ++ sort] else params
  let params := if format != "all" then params ++ ["f=" ++ format] else params
  let params := if location != 0 then params ++ ["l=" ++ toString location] else params
  if !params.isEmpty then
    BANDCAMP_BASE ++ "/discover" ++ "?" ++ String.intercalate "&" params
  else BANDCAMP_BASE ++ "/discover"

/-- One discovery item (lines 362–386). -/
def buildDiscoverItem (item : Elem) : Rec :=
  let a : Rec := []
  let a := match subOne item "a" with
    | some link => a.set "url" (.str (link.getAttr "href" ""))
    | none => a
  let a := match subOne item ".heading" with
    | some t => a.set "title" (.str t.text)
    | none => a
  let a := match subOne item ".subhead" with
    | some t => a.set "artist" (.str t.text)
    | none => a
  let a := match subOne item "img" with
    | some img => a.set "image" (.str (pyOr (img.getAttr "src" "") (img.getAttr "data-original" "")))
    | none => a
  let a := match subOne item ".genre" with
    | some g => a.set "genre" (.str g.text)
    | none => a
  a

/-- The `albums` list of `discover`: entries kept only when their title is
truthy (lines 385–386). -/
def discoverAlbums (soup : Soup) : List Rec :=
  ((soup ".discover-item").map buildDiscoverItem).filter
    (fun a => truthyOpt (a.get? "title"))

/-- `BandcampClient.discover` (lines 331–393), given the parsed document
fetched from `discover_url genre subgenre sort format location`. -/
def discover (genre subgenre sort format : String) (location : Int) (soup : Soup) : Rec :=
  let _ := location
  [("genre", .str genre), ("subgenre", .str subgenre), ("sort", .str sort),
   ("albums", .arr ((discoverAlbums soup).map Val.obj))]

/-- The client object (`BandcampClient.__init__`, lines 21–27): the only
instance state is the user agent and the header dict derived from it; no
method ever writes these after construction, and the extraction methods
read them only through `_fetch`, which is modelled by passing in the
fetched document. -/
structure BandcampClient where
  user_agent : String
  headers : List (String × String)

def BandcampClient.init (user_agent : String := "BandcampMCP/1.0") : BandcampClient :=
  { user_agent := user_agent,
    headers := [("User-Agent", user_agent),
                ("Accept", "text/html,application/xhtml+xml,application/xml;q=0.9,*/*;q=0.8"),
                ("Accept-Language", "en-US,en;q=0.5")] }

/- Aliases so the method wrappers below can refer to the top-level
operations from inside the `BandcampClient` namespace. -/

def searchFn := search

def getAlbumFn := get_album

def getArtistFn := get_artist

def getTrackFn := get_track

def getTagPageFn := get_tag_page

def discoverFn := discover

/-- Method wrapper: `self` is read only by `_fetch`, which is modelled by
the `soup` argument; the extraction itself uses nothing from `self`. -/
def BandcampClient.search (_ : BandcampClient) (q it : String) (page : Int)
    (soup : Soup) : Rec :=
  searchFn q it page soup

def BandcampClient.get_album (_ : BandcampClient) (loads : String → Option Val)
    (url : String) (soup : Soup) : Except PyErr Rec :=
  getAlbumFn loads url soup

def BandcampClient.get_artist (_ : BandcampClient) (urljoin : String → String → String)
    (url : String) (soup : Soup) : Rec :=
  getArtistFn urljoin url soup

def BandcampClient.get_track (_ : BandcampClient) (loads : String → Option Val)
    (url : String) (soup : Soup) : Except PyErr Rec :=
  getTrackFn loads url soup

def BandcampClient.get_tag_page (_ : BandcampClient) (tag sort : String) (page : Int)
    (soup : Soup) : Rec :=
  getTagPageFn tag sort page soup

def BandcampClient.discover (_ : BandcampClient) (genre subgenre sort format : String)
    (location : Int) (soup : Soup) : Rec :=
  discoverFn genre subgenre sort format location soup

/- ===== src/server_remote.py (presentation formatting in call_tool) ===== -/

/-- The duration display normalization of `call_tool` (line 232):
`duration.replace("P", "").replace("T", "").replace("M", ":").replace("S", "")`. -/
def formatDuration (d : String) : String :=
  pyReplace (pyReplace (pyReplace (pyReplace d "P" "") "T" "") "M" ":") "S" ""

/-- One tracklist line of the `bandcamp_get_album` formatter (lines
226–234).  `duration.replace` raises AttributeError when the stored
duration is not a string; the truthiness test is re-run on the replaced
value before adding the parenthesis. -/
def trackLine (t : Rec) : Except PyErr String :=
  let pos := (t.get? "position").getD (.str "")
  let title := (t.get? "title").getD (.str "")
  let dur := (t.get? "duration").getD (.str "")
  match (if dur.truthy then
           match dur with
           | .str s => Except.ok (Val.str (formatDuration s))
           | _ => Except.error PyErr.attributeError
         else Except.ok dur) with
  | .error e => .error e
  | .ok dur =>
  let durStr := if dur.truthy then " (" ++ pyStr dur ++ ")" else ""
  .ok ("  " ++ pyStr pos ++ ". " ++ pyStr title ++ durStr)

/-- Python string slicing `s[:n]`: the first `n` code points. -/
def pyTake (s : String) (n : Nat) : String := String.mk (s.data.take n)

/-- The `About` section line of the album formatter (lines 236–238):
truncate to 500 characters and append `...` when over the limit. -/
def aboutLine (a : String) : String :=
  "\nAbout:\n" ++ pyTake a 500 ++ (if 500 < a.length then "..." else "")

/-- The `Credits` section line of the album formatter (lines 240–242):
truncate to 300 characters and append `...` when over the limit. -/
def creditsLine (c : String) : String :=
  "\nCredits:\n" ++ pyTake c 300 ++ (if 300 < c.length then "..." else "")

/-- The `Bio` section line of the artist formatter (lines 257–259):
truncate to 800 characters and append `...` when over the limit. -/
def bioLine (b : String) : String :=
  "\nBio:\n" ++ pyTake b 800 ++ (if 800 < b.length then "..." else "")

/-- The `Lyrics` section line of the track formatter (lines 299–301):
truncate to 1000 characters and append `...` when over the limit. -/
def lyricsLine (l : String) : String :=
  "\nLyrics:\n" ++ pyTake l 1000 ++ (if 1000 < l.length then "..." else "")

/-- The `Description` section line of the track formatter (lines
303–305): truncate to 500 characters; no ellipsis marker is appended. -/
def descriptionLine (d : String) : String :=
  "\nDescription:\n" ++ pyTake d 500

/- ===== Basic lemmas about the record model ===== -/

theorem Rec.get?_set (r : Rec) (k k' : String) (v : Val) :
    (r.set k v).get? k' = if k = k' then some v else r.get? k' := by
  induction r with
  | nil => simp [Rec.set, Rec.get?]
  | cons hd tl ih =>
    obtain ⟨hk, hv⟩ := hd
    by_cases h1 : hk = k
    · subst h1
      by_cases h2 : hk = k' <;> simp [Rec.set, Rec.get?, h2]
    · by_cases h2 : hk = k'
      · subst h2
        have hne : ¬ k = hk := fun h => h1 h.symm
        simp [Rec.set, Rec.get?, h1, hne]
      · simp [Rec.set, Rec.get?, h1, h2, ih]

/-- In every built search result, the `title` field, when present, is a
string (it only ever comes from a heading element's text). -/
theorem buildSearchResult_title (item : Elem) :
    (buildSearchResult item).get? "title" = none ∨
    ∃ s, (buildSearchResult item).get? "title" = some (.str s) := by
  unfold buildSearchResult
  repeat' split
  all_goals simp [Rec.get?_set, Rec.get?]

theorem buildTagItem_title (item : Elem) :
    (buildTagItem item).get? "title" = none ∨
    ∃ s, (buildTagItem item).get? "title" = some (.str s) := by
  unfold buildTagItem
  repeat' split
  all_goals simp [Rec.get?_set, Rec.get?]

theorem buildDiscoItem_title (urljoin : String → String → String) (url : String) (item : Elem) :
    (buildDiscoItem urljoin url item).get? "title" = none ∨
    ∃ s, (buildDiscoItem urljoin url item).get? "title" = some (.str s) := by
  unfold buildDiscoItem
  repeat' split
  all_goals simp [Rec.get?_set, Rec.get?]

theorem buildDiscoverItem_title (item : Elem) :
    (buildDiscoverItem item).get? "title" = none ∨
    ∃ s, (buildDiscoverItem item).get? "title" = some (.str s) := by
  unfold buildDiscoverItem
  repeat' split
  all_goals simp [Rec.get?_set, Rec.get?]

/-- A leaf element with the given stripped text and nothing else. -/
def leafElem (t : String) : Elem := .mk t [] none (fun _ => [])

/-- A tag-page item block that has a `.itemtext` title element. -/
def itemTitled : Elem :=
  .mk "" [] none (fun sel => if sel = ".itemtext" then [leafElem "Some Album"] else [])

/-- A tag-page item block with a link but no title element. -/
def itemUntitled : Elem :=
  .mk "" [] none (fun sel => if sel = "a" then [.mk "x" [("href", "http://x")] none (fun _ => [])] else [])

/-- A tag page holding exactly two item blocks, of which only the first
has a title. -/
def soupTwoItems : Soup :=
  fun sel => if sel = ".item_list .item" then [itemTitled, itemUntitled] else []

/-- C3: every listing entry included in a returned record
(`SearchResponse.results`, `Artist.discography`, `TagPage.albums`,
`DiscoverPage.albums`) carries a non-empty string `title`; candidate
entries without a truthy title are dropped by the `if …​.get("title")`
guard before inclusion.  In particular, for a tag page with two item
blocks of which exactly one has a title, `TagPage.albums` has exactly the
one titled entry. -/
theorem C3_nonempty_titles :
    (∀ (soup : Soup) (r : Rec), r ∈ searchResults soup →
        ∃ s, r.get? "title" = some (.str s) ∧ s ≠ "") ∧
    (∀ (urljoin : String → String → String) (url : String) (soup : Soup) (r : Rec),
        r ∈ artistDiscography urljoin url soup →
        ∃ s, r.get? "title" = some (.str s) ∧ s ≠ "") ∧
    (∀ (soup : Soup) (r : Rec), r ∈ tagAlbums soup →
        ∃ s, r.get? "title" = some (.str s) ∧ s ≠ "") ∧
    (∀ (soup : Soup) (r : Rec), r ∈ discoverAlbums soup →
        ∃ s, r.get? "title" = some (.str s) ∧ s ≠ "") ∧
    tagAlbums soupTwoItems = [[("title", Val.str "Some Album")]] := by
  refine ⟨?_, ?_, ?_, ?_, rfl⟩
  · intro soup r hr
    obtain ⟨hmem, hpred⟩ := List.mem_filter.mp hr
    obtain ⟨item, -, rfl⟩ := List.mem_map.mp hmem
    rcases buildSearchResult_title item with h | ⟨s, h⟩
    · rw [h] at hpred; simp [truthyOpt] at hpred
    · refine ⟨s, h, ?_⟩
      rw [h] at hpred
      simpa [truthyOpt, Val.truthy] using hpred
  · intro urljoin url soup r hr
    obtain ⟨hmem, hpred⟩ := List.mem_filter.mp hr
    obtain ⟨item, -, rfl⟩ := List.mem_map.mp hmem
    rcases buildDiscoItem_title urljoin url item with h | ⟨s, h⟩
    · rw [h] at hpred; simp [truthyOpt] at hpred
    · refine ⟨s, h, ?_⟩
      rw [h] at hpred
      simpa [truthyOpt, Val.truthy] using hpred
  · intro soup r hr
    obtain ⟨hmem, hpred⟩ := List.mem_filter.mp hr
    obtain ⟨item, -, rfl⟩ := List.mem_map.mp hmem
    rcases buildTagItem_title item with h | ⟨s, h⟩
    · rw [h] at hpred; simp [truthyOpt] at hpred
    · refine ⟨s, h, ?_⟩
      rw [h] at hpred
      simpa [truthyOpt, Val.truthy] using hpred
  · intro soup r hr
    obtain ⟨hmem, hpred⟩ := List.mem_filter.mp hr
    obtain ⟨item, -, rfl⟩ := List.mem_map.mp hmem
    rcases buildDiscoverItem_title item with h | ⟨s, h⟩
    · rw [h] at hpred; simp [truthyOpt] at hpred
    · refine ⟨s, h, ?_⟩
      rw [h] at hpred
      simpa [truthyOpt, Val.truthy] using hpred

/-- Witness for C3 at a concrete input: the single entry of the two-block
tag page indeed has the non-empty title. -/
theorem C3_nonempty_titles_witness :
    ∃ s, Rec.get? [("title", Val.str "Some Album")] "title" = some (.str s) ∧ s ≠ "" :=
  C3_nonempty_titles.2.2.1 soupTwoItems _
    (by rw [show tagAlbums soupTwoItems = [[("title", Val.str "Some Album")]] from rfl]
        exact List.mem_singleton.mpr rfl)

/-- C10: each extraction operation is deterministic and independent of
client state.  The only cross-invocation state in the source is the
module-level `BandcampClient` instance, whose fields (`user_agent`,
`headers`) are written once in `__init__` and read only by `_fetch`;
given the same fetched document and the same scalar arguments, any two
invocations — even on different client instances — produce identical
records. -/
theorem C10_determinism (c1 c2 : BandcampClient) :
    (∀ q it p soup, c1.search q it p soup = c2.search q it p soup) ∧
    (∀ loads url soup, c1.get_album loads url soup = c2.get_album loads url soup) ∧
    (∀ urljoin url soup, c1.get_artist urljoin url soup = c2.get_artist urljoin url soup) ∧
    (∀ loads url soup, c1.get_track loads url soup = c2.get_track loads url soup) ∧
    (∀ tag sort p soup, c1.get_tag_page tag sort p soup = c2.get_tag_page tag sort p soup) ∧
    (∀ g sg srt f l soup, c1.discover g sg srt f l soup = c2.discover g sg srt f l soup) :=
  ⟨fun _ _ _ _ => rfl, fun _ _ _ => rfl, fun _ _ _ => rfl, fun _ _ _ => rfl,
   fun _ _ _ _ => rfl, fun _ _ _ _ _ _ => rfl⟩

/-- Python `needle in hay` on character lists. -/
def containsSub (needle : List Char) : List Char → Bool
  | [] => needle.isEmpty
  | c :: cs => leadMatch needle (c :: cs) || containsSub needle cs

/-- C4: `discover` builds its URL from exactly the parameters the source
emits, in the order genre, subgenre, sort, format, location — the string
parameters when non-empty, the format when not the default `all`, the
location when non-zero.  In particular
`discover(genre="ambient", subgenre="", sort="new", format="all", location=0)`
fetches a URL containing `g=ambient&sort=new` and no `s=`, `f=` or `l=`
parameter. -/
theorem C4_discover_url :
    (∀ (g sg srt f : String) (l : Int),
      discover_url g sg srt f l =
        (let ps := (if g ≠ "" then ["g=" ++ quotePlus g] else []) ++
                   (if sg ≠ "" then ["s=" ++ quotePlus sg] else []) ++
                   (if srt ≠ "" then ["sort=" ++ srt] else []) ++
                   (if f ≠ "all" then ["f=" ++ f] else []) ++
                   (if l ≠ 0 then ["l=" ++ toString l] else []);
         if ps = [] then BANDCAMP_BASE ++ "/discover"
         else BANDCAMP_BASE ++ "/discover" ++ "?" ++ String.intercalate "&" ps)) ∧
    discover_url "ambient" "" "new" "all" 0 = "https://bandcamp.com/discover?g=ambient&sort=new" ∧
    containsSub "g=ambient&sort=new".data (discover_url "ambient" "" "new" "all" 0).data = true ∧
    containsSub "s=".data (discover_url "ambient" "" "new" "all" 0).data = false ∧
    containsSub "f=".data (discover_url "ambient" "" "new" "all" 0).data = false ∧
    containsSub "l=".data (discover_url "ambient" "" "new" "all" 0).data = false := by
  refine ⟨?_, by decide, by decide, by decide, by decide, by decide⟩
  intro g sg srt f l
  simp only [discover_url]
  by_cases h1 : g = "" <;> by_cases h2 : sg = "" <;> by_cases h3 : srt = "" <;>
    by_cases h4 : f = "all" <;> by_cases h5 : l = 0 <;>
    simp [h1, h2, h3, h4, h5, String.append_assoc,
      show ("/discover?" : String) = "/discover" ++ "?" from rfl]

/-- Characters that may appear in a percent-encoded URL query component:
the always-safe bytes plus `+` (encoded space) and `%` (escape lead). -/
def queryComponentSafe (c : Char) : Bool :=
  isSafeByte c.toNat || c.toNat == 43 || c.toNat == 37

theorem char_toNat_ofNat (n : Nat) (h : n < 55296) : (Char.ofNat n).toNat = n := by
  have hv : n.isValidChar := Or.inl h
  simp [Char.ofNat, hv, Char.ofNatAux, Char.toNat]
  rfl

theorem char_toNat_lt (c : Char) : c.toNat < 1114112 := by
  have h := c.valid
  simp [UInt32.isValidChar, Nat.isValidChar] at h
  rcases h with h | h <;> simp [Char.toNat] <;> omega

theorem hexDig_safe (n : Nat) (h : n < 16) : isSafeByte (hexDig n).toNat = true := by
  interval_cases n <;> decide

theorem encodeByte_safe (b : Nat) (hb : b < 256) :
    ∀ c ∈ encodeByte b, queryComponentSafe c = true := by
  intro c hc
  unfold encodeByte at hc
  by_cases hs : isSafeByte b
  · simp [hs] at hc
    subst hc
    simp [queryComponentSafe, char_toNat_ofNat b (by omega), hs]
  · by_cases h32 : b = 32
    · subst h32
      have h32f : isSafeByte 32 = false := rfl
      simp [h32f] at hc
      subst hc
      decide
    · simp [hs, h32] at hc
      rcases hc with hc | hc | hc <;> subst hc
      · decide
      · simp [queryComponentSafe, hexDig_safe (b / 16 % 16) (Nat.mod_lt _ (by omega))]
      · simp [queryComponentSafe, hexDig_safe (b % 16) (Nat.mod_lt _ (by omega))]

theorem charUtf8_lt (c : Char) : ∀ b ∈ charUtf8 c, b < 256 := by
  intro b hb
  have hc := char_toNat_lt c
  unfold charUtf8 at hb
  by_cases h1 : c.toNat < 128
  · simp [h1] at hb; omega
  · by_cases h2 : c.toNat < 2048
    · simp [h1, h2] at hb; rcases hb with hb | hb <;> omega
    · by_cases h3 : c.toNat < 65536
      · simp [h1, h2, h3] at hb; rcases hb with hb | hb | hb <;> omega
      · simp [h1, h2, h3] at hb; rcases hb with hb | hb | hb | hb <;> omega

theorem quotePlus_safe (q : String) :
    ∀ c ∈ (quotePlus q).data, queryComponentSafe c = true := by
  intro c hc
  have hc' : c ∈ (q.data.flatMap charUtf8).flatMap encodeByte := hc
  rcases List.mem_flatMap.mp hc' with ⟨b, hbmem, hcb⟩
  rcases List.mem_flatMap.mp hbmem with ⟨ch, -, hbch⟩
  exact encodeByte_safe b (charUtf8_lt ch b hbch) c hcb

/-- C8: the search URL maps the item type through the site's short codes
(`album→a`, `artist→b`, `track→t`, `label→b`, `fan→f`), emits no filter
parameter for `all` or for any item type outside the mapping (and raises
no error), and percent-encodes the query text for the URL query
component: every character `quote_plus` produces is an always-safe byte,
`+`, or `%` — in particular never `&`, `=`, `#` or a space. -/
theorem C8_search_url :
    (∀ (q it : String) (p : Int),
      search_url q it p =
        BANDCAMP_BASE ++ "/search?q=" ++ quotePlus q ++ "&page=" ++ toString p ++
          (if it = "album" then "&item_type=a"
           else if it = "artist" ∨ it = "label" then "&item_type=b"
           else if it = "track" then "&item_type=t"
           else if it = "fan" then "&item_type=f"
           else "")) ∧
    (∀ q : String, ∀ c ∈ (quotePlus q).data, queryComponentSafe c = true) ∧
    (∀ c : Char, queryComponentSafe c = true →
      c ≠ '&' ∧ c ≠ '=' ∧ c ≠ '#' ∧ c ≠ ' ') := by
  refine ⟨?_, quotePlus_safe, ?_⟩
  · intro q it p
    by_cases h1 : it = "all" <;> by_cases h2 : it = "album" <;>
      by_cases h3 : it = "artist" <;> by_cases h4 : it = "track" <;>
      by_cases h5 : it = "label" <;> by_cases h6 : it = "fan" <;>
      simp_all [search_url, sget, String.append_assoc, eq_comm]
  · intro c h
    refine ⟨?_, ?_, ?_, ?_⟩ <;> intro hc <;> subst hc <;> revert h <;> decide

/-- Witness for C8 at a concrete input: the space in the query `"a b"` is
encoded as `+`, which is query-component safe and none of the reserved
characters. -/
theorem C8_search_url_witness :
    queryComponentSafe '+' = true ∧
    ('+' ≠ '&' ∧ '+' ≠ '=' ∧ '+' ≠ '#' ∧ '+' ≠ ' ') := by
  have h := C8_search_url.2.1 "a b" '+' (by decide)
  exact ⟨h, C8_search_url.2.2 '+' h⟩

/-- A single-character `str.replace` acts independently on each
character. -/
theorem pyReplaceL_single (c : Char) (new : List Char) (l : List Char) :
    pyReplaceL [c] new l = l.flatMap (fun a => if a = c then new else [a]) := by
  induction l with
  | nil => simp [pyReplaceL]
  | cons a l ih =>
    by_cases h : c = a
    · subst h
      simp [pyReplaceL, leadMatch, ih]
    · have h' : ¬a = c := fun hh => h hh.symm
      simp [pyReplaceL, leadMatch, h, h', ih]

/-- The per-character effect of the duration normalization chain:
`P`, `T`, `S` are stripped and `M` becomes the separator `:`. -/
def durChar (a : Char) : List Char :=
  if a = 'P' then [] else if a = 'T' then [] else if a = 'M' then [':']
  else if a = 'S' then [] else [a]

theorem formatDuration_chars (d : String) :
    formatDuration d = String.mk (d.data.flatMap durChar) := by
  have key : ∀ l : List Char,
      (((l.flatMap (fun a => if a = 'P' then [] else [a])).flatMap
         (fun a => if a = 'T' then [] else [a])).flatMap
         (fun a => if a = 'M' then [':'] else [a])).flatMap
         (fun a => if a = 'S' then [] else [a]) = l.flatMap durChar := by
    intro l
    induction l with
    | nil => simp
    | cons a l ih =>
      simp only [List.flatMap_cons, List.flatMap_append]
      rw [ih]
      congr 1
      by_cases h1 : a = 'P' <;> by_cases h2 : a = 'T' <;> by_cases h3 : a = 'M' <;>
        by_cases h4 : a = 'S' <;> simp_all [durChar] <;> decide
  simp [formatDuration, pyReplace, pyReplaceL_single, key]

/-- C7: the presentation layer formats an album track duration by
stripping the `P`/`T` designators and turning `M` into the `:` separator
and dropping `S` — character by character, exactly `durChar` — so
`"PT3M45S"` displays as `"3:45"`; an hour-bearing input such as
`"PT1H2M3S"` is not special-cased (it displays as `"1H2:3"`); and the
formatting is applied only inside the displayed line, the record's stored
`duration` value being read, never written: the displayed line for a
record whose stored duration is `d` interpolates `formatDuration d` while
the record still maps `"duration"` to `d`. -/
theorem C7_duration_display :
    (∀ d : String, formatDuration d = String.mk (d.data.flatMap durChar)) ∧
    formatDuration "PT3M45S" = "3:45" ∧
    formatDuration "PT1H2M3S" = "1H2:3" ∧
    (∀ (t : Rec) (d : String),
      t.get? "duration" = some (.str d) → d ≠ "" → formatDuration d ≠ "" →
      trackLine t =
        .ok ("  " ++ pyStr ((t.get? "position").getD (.str "")) ++ ". " ++
             pyStr ((t.get? "title").getD (.str "")) ++
             (" (" ++ formatDuration d ++ ")")) ∧
      t.get? "duration" = some (.str d)) := by
  refine ⟨formatDuration_chars, by rw [formatDuration_chars]; decide,
    by rw [formatDuration_chars]; decide, ?_⟩
  intro t d hdur hd hfd
  refine ⟨?_, hdur⟩
  simp only [trackLine, hdur, Option.getD_some]
  have h1 : Val.truthy (.str d) = true := by simp [Val.truthy, hd]
  have h2 : Val.truthy (.str (formatDuration d)) = true := by simp [Val.truthy, hfd]
  simp [h1, h2, pyStr]

/-- Witness for C7 at a concrete record: position 1, title `X`, stored
duration `PT3M45S` displays as `  1. X (3:45)`. -/
theorem C7_duration_display_witness :
    trackLine [("position", Val.num 1), ("title", Val.str "X"),
               ("duration", Val.str "PT3M45S")] = .ok "  1. X (3:45)" := by
  have hfd : formatDuration "PT3M45S" = "3:45" := by
    rw [formatDuration_chars]; decide
  have h := (C7_duration_display.2.2.2
    [("position", Val.num 1), ("title", Val.str "X"), ("duration", Val.str "PT3M45S")]
    "PT3M45S" rfl (by decide) (by rw [hfd]; decide)).1
  rw [hfd] at h
  exact h.trans (congrArg Except.ok (by decide))

/-- The canonical artist record stores the full bio text from the page,
untruncated. -/
theorem get_artist_bio (urljoin : String → String → String) (url : String)
    (soup : Soup) (b : Elem) (h : selectOne soup ".bio-text" = some b) :
    (get_artist urljoin url soup).get? "bio" = some (.str b.text) := by
  unfold get_artist
  rcases h1 : selectOne soup "#band-name-location .title" with - | e1 <;>
    rcases h2 : selectOne soup "#band-name-location .location" with - | e2 <;>
    simp [h, h1, h2, Rec.get?_set]

/-- C5 counterexample: the description field is truncated to 500
characters but no ellipsis marker is ever appended — the claim's "with an
ellipsis marker appended whenever truncation occurred" fails for
`description`.  A 600-character description displays as exactly the first
500 characters with no `...` anywhere in the section. -/
theorem containsSub_false (c : Char) (ns hay : List Char)
    (h : ∀ x ∈ hay, x ≠ c) : containsSub (c :: ns) hay = false := by
  induction hay with
  | nil => simp [containsSub]
  | cons x xs ih =>
    have hx : (c == x) = false :=
      beq_eq_false_iff_ne.mpr (fun hh => (h x (by simp)) hh.symm)
    simp [containsSub, leadMatch, hx, ih (fun y hy => h y (by simp [hy]))]

theorem C5_description_no_ellipsis :
    descriptionLine (String.mk (List.replicate 600 'a')) =
      "\nDescription:\n" ++ String.mk (List.replicate 500 'a') ∧
    containsSub "...".data
      (descriptionLine (String.mk (List.replicate 600 'a'))).data = false ∧
    (String.mk (List.replicate 600 'a')).length = 600 := by
  refine ⟨?_, ?_, ?_⟩
  · simp [descriptionLine, pyTake, List.take_replicate]
  · have hlit : ∀ x ∈ "\nDescription:\n".data, x ≠ '.' := by decide
    refine containsSub_false '.' _ _ ?_
    intro x hx
    simp only [descriptionLine, pyTake] at hx
    have hx' : x ∈ "\nDescription:\n".data ++ List.take 500 (List.replicate 600 'a') := hx
    rcases List.mem_append.mp hx' with h1 | h1
    · exact hlit x h1
    · have := List.eq_of_mem_replicate (List.mem_of_mem_take h1)
      subst this
      decide
  · simp [String.length]

/-- C5 (amended): the presentation layer truncates `about` to 500,
`credits` to 300, `bio` to 800 and `lyrics` to 1000 characters with an
ellipsis marker appended on truncation, while `description` is truncated
to 500 characters with no marker; the canonical record keeps the full
text — the artist record's `bio` is exactly the page's bio text whatever
its length. -/
theorem C5_truncation :
    (∀ s : String, 500 < s.length → aboutLine s = "\nAbout:\n" ++ pyTake s 500 ++ "...") ∧
    (∀ s : String, 300 < s.length → creditsLine s = "\nCredits:\n" ++ pyTake s 300 ++ "...") ∧
    (∀ s : String, 800 < s.length → bioLine s = "\nBio:\n" ++ pyTake s 800 ++ "...") ∧
    (∀ s : String, 1000 < s.length → lyricsLine s = "\nLyrics:\n" ++ pyTake s 1000 ++ "...") ∧
    (∀ s : String, descriptionLine s = "\nDescription:\n" ++ pyTake s 500) ∧
    (∀ s : String, 800 < s.length → (pyTake s 800).length = 800) ∧
    (∀ (urljoin : String → String → String) (url : String) (soup : Soup) (b : Elem),
      selectOne soup ".bio-text" = some b →
      (get_artist urljoin url soup).get? "bio" = some (.str b.text)) := by
  refine ⟨?_, ?_, ?_, ?_, fun s => rfl, ?_, get_artist_bio⟩
  · intro s h; simp [aboutLine, h]
  · intro s h; simp [creditsLine, h]
  · intro s h; simp [bioLine, h]
  · intro s h; simp [lyricsLine, h]
  · intro s h
    have h1 : (pyTake s 800).length = (s.data.take 800).length := rfl
    have h2 : 800 < s.data.length := h
    rw [h1, List.length_take]
    omega

/-- Witness for C5 at the spec's concrete instance: a 900-character bio
displays as its first 800 characters plus `...` while the artist record
keeps all 900 characters. -/
theorem C5_truncation_witness :
    bioLine (String.mk (List.replicate 900 'a')) =
      "\nBio:\n" ++ pyTake (String.mk (List.replicate 900 'a')) 800 ++ "..." ∧
    (pyTake (String.mk (List.replicate 900 'a')) 800).length = 800 ∧
    (get_artist (fun _ h => h) "u"
        (fun sel => if sel = ".bio-text" then [leafElem (String.mk (List.replicate 900 'a'))] else [])).get?
        "bio" = some (.str (String.mk (List.replicate 900 'a'))) ∧
    (String.mk (List.replicate 900 'a')).length = 900 := by
  have hlen : 800 < (String.mk (List.replicate 900 'a')).length := by
    simp [String.length]
  refine ⟨C5_truncation.2.2.1 _ hlen, C5_truncation.2.2.2.2.2.1 _ hlen, ?_, by simp [String.length]⟩
  have h := C5_truncation.2.2.2.2.2.2 (fun _ h => h) "u"
    (fun sel => if sel = ".bio-text" then [leafElem (String.mk (List.replicate 900 'a'))] else [])
    (leafElem (String.mk (List.replicate 900 'a'))) rfl
  simpa [leafElem, Elem.text] using h

/-- C2: on an album page whose structured-data block is syntactically
malformed (the JSON parser fails), `get_album` absorbs the parse failure
— the `except (json.JSONDecodeError, KeyError)` clause — and the returned
record's title and artist come from the selector-based fallback
(`#name-section .trackTitle` and `#name-section a`); no exception escapes
the extraction layer. -/
theorem C2_malformed_fallback (loads : String → Option Val) (url : String)
    (soup : Soup) (el te ae : Elem) (s : String)
    (h1 : selectOne soup ldSelector = some el)
    (h2 : el.strContent = some s)
    (h3 : loads s = none)
    (h4 : selectOne soup "#name-section .trackTitle" = some te)
    (h5 : selectOne soup "#name-section a" = some ae) :
    ∃ r, get_album loads url soup = .ok r ∧
      r.get? "title" = some (.str te.text) ∧
      r.get? "artist" = some (.str ae.text) := by
  rcases h6 : selectOne soup ".tralbum-about" with - | e6 <;>
    rcases h7 : selectOne soup ".tralbum-credits" with - | e7 <;>
    simp [get_album, ldStep, h1, h2, h3, h4, h5, h6, h7, truthyOpt, Val.truthy,
      Rec.get?, Rec.get?_set]

/-- A concrete album page with a malformed structured-data block and the
fallback name-section markup. -/
def soupC2 : Soup := fun sel =>
  if sel = ldSelector then [Elem.mk "" [] (some "not json") (fun _ => [])]
  else if sel = "#name-section .trackTitle" then [leafElem "Fallback Title"]
  else if sel = "#name-section a" then [leafElem "Fallback Artist"]
  else []

/-- Witness for C2 at a concrete input: every parse attempt fails, and the
record still comes back with the selector-based title and artist. -/
theorem C2_malformed_fallback_witness :
    ∃ r, get_album (fun _ => none) "u" soupC2 = .ok r ∧
      r.get? "title" = some (.str "Fallback Title") ∧
      r.get? "artist" = some (.str "Fallback Artist") :=
  C2_malformed_fallback (fun _ => none) "u" soupC2
    (Elem.mk "" [] (some "not json") (fun _ => []))
    (leafElem "Fallback Title") (leafElem "Fallback Artist") "not json"
    rfl rfl rfl rfl rfl

/-- `.get` on any non-dict value raises AttributeError. -/
theorem pyGet_non_obj (v : Val) (h : ∀ o, v ≠ .obj o) (k : String) (d : Val) :
    pyGet v k d = .error .attributeError := by
  cases v <;> simp [pyGet]
  exact absurd rfl (h _)

/-- A page whose only relevant content is a JSON-LD script block with the
given `.string` content. -/
def soupLd (s : String) : Soup :=
  fun sel => if sel = ldSelector then [Elem.mk "" [] (some s) (fun _ => [])] else []

/-- A parser under which the script content `LD1` is a well-formed JSON
object whose `byArtist` is bound to a non-object (string) value. -/
def loadsC1 : String → Option Val :=
  fun s => if s = "LD1" then some (.obj [("name", .str "T"), ("byArtist", .str "X")]) else none

/-- C1 counterexample: on a page whose structured-data block parses to an
object whose `byArtist` is bound to a non-object value, `get_album` and
`get_track` do NOT absorb the failure — Python's
`data.get("byArtist", {}).get("name", "")` raises an AttributeError that
the `except (json.JSONDecodeError, KeyError)` clause does not catch, so
the whole invocation aborts with an exception instead of returning the
record with that field omitted. -/
theorem C1_nested_non_object_cex :
    get_album loadsC1 "u" (soupLd "LD1") = .error .attributeError ∧
    get_track loadsC1 "u" (soupLd "LD1") = .error .attributeError :=
  ⟨rfl, rfl⟩

/-- C1 (amended): `get_album` and `get_track` absorb a malformed
structured-data block — a JSON parse failure is caught and the record is
still returned — but a nested object bound to a non-object value (e.g.
`byArtist`) raises an AttributeError that escapes the extraction layer
and aborts the invocation (it is caught only by the tool-call handler's
generic `except Exception`). -/
theorem C1_ld_failure_handling :
    (∀ (loads : String → Option Val) (url : String) (soup : Soup) (el : Elem) (s : String),
      selectOne soup ldSelector = some el → el.strContent = some s → loads s = none →
      (∃ r, get_album loads url soup = .ok r) ∧ (∃ r, get_track loads url soup = .ok r)) ∧
    (∀ (loads : String → Option Val) (url : String) (soup : Soup) (el : Elem) (s : String)
        (o : List (String × Val)) (v : Val),
      selectOne soup ldSelector = some el → el.strContent = some s →
      loads s = some (.obj o) → Rec.get? o "byArtist" = some v → (∀ o', v ≠ .obj o') →
      get_album loads url soup = .error .attributeError ∧
      get_track loads url soup = .error .attributeError) := by
  constructor
  · intro loads url soup el s h1 h2 h3
    constructor
    · simp [get_album, ldStep, h1, h2, h3]
    · simp [get_track, ldStep, h1, h2, h3]
  · intro loads url soup el s o v h1 h2 h3 hby hno
    have hv : lget o "byArtist" (.obj []) = v := by simp [lget, hby]
    constructor
    · simp [get_album, ldStep, albumFromLd, h1, h2, h3, hv, pyGet_non_obj v hno]
    · simp [get_track, ldStep, trackFromLd, h1, h2, h3, hv, pyGet_non_obj v hno]

/-- Witness for C1 (amended) at concrete inputs: a failing parse still
yields records, and the concrete `byArtist`-bound string aborts both
operations. -/
theorem C1_ld_failure_handling_witness :
    ((∃ r, get_album (fun _ => none) "u" (soupLd "bad") = .ok r) ∧
     (∃ r, get_track (fun _ => none) "u" (soupLd "bad") = .ok r)) ∧
    (get_album loadsC1 "u" (soupLd "LD1") = .error .attributeError ∧
     get_track loadsC1 "u" (soupLd "LD1") = .error .attributeError) :=
  ⟨C1_ld_failure_handling.1 (fun _ => none) "u" (soupLd "bad")
      (Elem.mk "" [] (some "bad") (fun _ => [])) "bad" rfl rfl rfl,
   C1_ld_failure_handling.2 loadsC1 "u" (soupLd "LD1")
      (Elem.mk "" [] (some "LD1") (fun _ => [])) "LD1"
      [("name", .str "T"), ("byArtist", .str "X")] (.str "X")
      rfl rfl rfl rfl (fun o' h => by cases h)⟩

/-- A successful `nestedPair` writes only `k1` and `k2`. -/
theorem nestedPair_get?_ne (src : Val) (f1 f2 k1 k2 k : String) (r r' : Rec)
    (h : nestedPair src f1 f2 k1 k2 r = .ok r') (hk1 : k1 ≠ k) (hk2 : k2 ≠ k) :
    r'.get? k = r.get? k := by
  unfold nestedPair at h
  by_cases ht : src.truthy
  · simp only [ht, if_true] at h
    cases h1 : pyGet src f1 (.str "") <;> rw [h1] at h <;> simp at h
    cases h2 : pyGet src f2 (.str "") <;> rw [h2] at h <;> simp at h
    subst h
    simp [Rec.get?_set, hk1, hk2]
  · simp only [ht, if_false] at h
    simp at h
    subst h
    rfl

/-- A successfully built per-track record is a dict whose first entry is
the `position`, the page's stated value or the default 0. -/
theorem buildLdTrack_ok (t tr : Val) (h : buildLdTrack t = .ok tr) :
    ∃ o, t = .obj o ∧
      ∃ rest, tr = .obj (("position", lget o "position" (.num 0)) :: rest) := by
  unfold buildLdTrack at h
  cases t <;> simp [pyGet] at h
  next o =>
  cases ho : (Rec.get? o "item").getD (Val.obj []) <;> rw [ho] at h <;> simp [pyGet] at h
  next oi =>
  exact ⟨o, rfl, _, h.symm⟩

/-- Every record in a successful track-loop result carries a `position`
field. -/
theorem ldTracks_positions (ts trs : List Val) (h : ldTracks ts = .ok trs) :
    ∀ tr ∈ trs, ∃ ro, tr = .obj ro ∧ ∃ p, Rec.get? ro "position" = some p := by
  induction ts generalizing trs with
  | nil =>
    simp [ldTracks] at h
    subst h
    simp
  | cons t ts ih =>
    unfold ldTracks at h
    cases hb : buildLdTrack t <;> rw [hb] at h <;> simp at h
    cases hrest : ldTracks ts <;> rw [hrest] at h <;> simp at h
    subst h
    intro tr htr
    rcases List.mem_cons.mp htr with rfl | hmem
    · rcases buildLdTrack_ok t _ hb with ⟨o, -, rest, htr'⟩
      exact ⟨_, htr', lget o "position" (.num 0), by simp [Rec.get?]⟩
    · exact ih _ hrest tr hmem
-- appended experiment
theorem albumFromLd_fields (o : List (String × Val)) (a r : Rec)
    (h : albumFromLd o a = .ok r) :
    r.get? "num_tracks" = some (lget o "numTracks" (.num 0)) ∧
    ∃ trs, r.get? "tracks" = some (.arr trs) ∧
      ∀ tr ∈ trs, ∃ ro, tr = .obj ro ∧ ∃ p, Rec.get? ro "position" = some p := by
  unfold albumFromLd at h
  split at h
  · simp at h
  next artistName h1 =>
  split at h
  · simp at h
  next tracksV h2 =>
  split at h
  · simp at h
  next ts h3 =>
  split at h
  · simp at h
  next trs h4 =>
  dsimp only at h
  split at h
  · simp at h
  next album6 h5 =>
  split at h
  · simp at h
  next album7 h6 =>
  simp at h
  subst h
  have e1 := nestedPair_get?_ne _ _ _ _ _ "num_tracks" _ _ h6 (by decide) (by decide)
  have e2 := nestedPair_get?_ne _ _ _ _ _ "num_tracks" _ _ h5 (by decide) (by decide)
  have e3 := nestedPair_get?_ne _ _ _ _ _ "tracks" _ _ h6 (by decide) (by decide)
  have e4 := nestedPair_get?_ne _ _ _ _ _ "tracks" _ _ h5 (by decide) (by decide)
  constructor
  · rw [e1, e2]
    simp [Rec.get?_set]
  · refine ⟨trs, ?_, ldTracks_positions ts trs h4⟩
    rw [e3, e4]
    simp [Rec.get?_set]

/-- A successful structured-data album pass never touches the `url`
field. -/
theorem albumFromLd_get?_url (o : List (String × Val)) (a r : Rec)
    (h : albumFromLd o a = .ok r) : r.get? "url" = a.get? "url" := by
  unfold albumFromLd at h
  split at h
  · simp at h
  next artistName h1 =>
  split at h
  · simp at h
  next tracksV h2 =>
  split at h
  · simp at h
  next ts h3 =>
  split at h
  · simp at h
  next trs h4 =>
  dsimp only at h
  split at h
  · simp at h
  next album6 h5 =>
  split at h
  · simp at h
  next album7 h6 =>
  simp at h
  subst h
  rw [nestedPair_get?_ne _ _ _ _ _ "url" _ _ h6 (by decide) (by decide),
      nestedPair_get?_ne _ _ _ _ _ "url" _ _ h5 (by decide) (by decide)]
  simp [Rec.get?_set]

/-- A successful structured-data track pass never touches the `url`
field. -/
theorem trackFromLd_get?_url (o : List (String × Val)) (a r : Rec)
    (h : trackFromLd o a = .ok r) : r.get? "url" = a.get? "url" := by
  unfold trackFromLd at h
  split at h
  · simp at h
  next artistName h1 =>
  dsimp only at h
  split at h
  · simp at h
  next track5 h5 =>
  split at h
  · simp at h
  next track6 h6 =>
  simp at h
  subst h
  rw [nestedPair_get?_ne _ _ _ _ _ "url" _ _ h6 (by decide) (by decide),
      nestedPair_get?_ne _ _ _ _ _ "url" _ _ h5 (by decide) (by decide)]
  simp [Rec.get?_set]

/-- The JSON-LD step preserves the `url` field whenever the extraction
body does. -/
theorem ldStep_preserves_url (loads : String → Option Val) (soup : Soup)
    (body : List (String × Val) → Rec → Except PyErr Rec) (r0 album : Rec)
    (hbody : ∀ o a r', body o a = .ok r' → r'.get? "url" = a.get? "url")
    (h : ldStep loads soup body r0 = .ok album) : album.get? "url" = r0.get? "url" := by
  unfold ldStep at h
  split at h
  · simp at h; subst h; rfl
  split at h
  · simp at h
  split at h
  · simp at h; subst h; rfl
  · exact hbody _ _ _ h
  · simp at h; subst h; rfl

theorem get_album_url (loads : String → Option Val) (url : String) (soup : Soup)
    (r : Rec) (h : get_album loads url soup = .ok r) :
    r.get? "url" = some (.str url) := by
  unfold get_album at h
  dsimp only at h
  cases hld : ldStep loads soup albumFromLd [("url", Val.str url)] with
  | error e => rw [hld] at h; simp at h
  | ok album =>
  rw [hld] at h
  have hbase : album.get? "url" = some (.str url) := by
    have hp := ldStep_preserves_url loads soup albumFromLd _ album albumFromLd_get?_url hld
    simpa [Rec.get?] using hp
  simp at h
  subst h
  repeat' split
  all_goals simp [Rec.get?_set, hbase]

theorem get_track_url (loads : String → Option Val) (url : String) (soup : Soup)
    (r : Rec) (h : get_track loads url soup = .ok r) :
    r.get? "url" = some (.str url) := by
  unfold get_track at h
  dsimp only at h
  cases hld : ldStep loads soup trackFromLd [("url", Val.str url)] with
  | error e => rw [hld] at h; simp at h
  | ok track =>
  rw [hld] at h
  have hbase : track.get? "url" = some (.str url) := by
    have hp := ldStep_preserves_url loads soup trackFromLd _ track trackFromLd_get?_url hld
    simpa [Rec.get?] using hp
  simp at h
  subst h
  repeat' split
  all_goals simp [Rec.get?_set, hbase]

theorem get_artist_url (urljoin : String → String → String) (url : String) (soup : Soup) :
    (get_artist urljoin url soup).get? "url" = some (.str url) := by
  unfold get_artist
  repeat' split
  all_goals simp [Rec.get?_set, Rec.get?]

/-- C9: the records returned by `get_album`, `get_artist` and `get_track`
always carry the input `url` unchanged, whatever the document — including
documents on which every extraction rule fails to match. -/
theorem C9_url_passthrough :
    (∀ (loads : String → Option Val) (url : String) (soup : Soup) (r : Rec),
      get_album loads url soup = .ok r → r.get? "url" = some (.str url)) ∧
    (∀ (urljoin : String → String → String) (url : String) (soup : Soup),
      (get_artist urljoin url soup).get? "url" = some (.str url)) ∧
    (∀ (loads : String → Option Val) (url : String) (soup : Soup) (r : Rec),
      get_track loads url soup = .ok r → r.get? "url" = some (.str url)) :=
  ⟨get_album_url, get_artist_url, get_track_url⟩

/-- A document on which every selector fails to match. -/
def emptySoup : Soup := fun _ => []

/-- Witness for C9 at a concrete input: on the all-empty document the
album and track records still hold the input URL. -/
theorem C9_url_passthrough_witness :
    Rec.get? [("url", Val.str "https://x"), ("tags", Val.arr [])] "url" =
      some (.str "https://x") ∧
    (get_artist (fun _ h => h) "https://y" emptySoup).get? "url" =
      some (.str "https://y") :=
  ⟨C9_url_passthrough.1 (fun _ => none) "https://x" emptySoup _ rfl,
   C9_url_passthrough.2.1 (fun _ h => h) "https://y" emptySoup⟩

/-- C6 counterexample: on an album page with no structured-data block the
returned record omits `num_tracks` (and `tracks`) entirely — the
`album["num_tracks"] = data.get("numTracks", 0)` assignment lives inside
the JSON-LD branch and never runs, so the field is not "never omitted" as
claimed. -/
theorem C6_num_tracks_omitted_cex :
    ∃ r, get_album (fun _ => none) "u" emptySoup = .ok r ∧
      r.get? "num_tracks" = none ∧ r.get? "tracks" = none :=
  ⟨_, rfl, rfl, rfl⟩

/-- C6 (amended): whenever the structured-data block is present and
parses to an object and `get_album` returns a record, that record's
`num_tracks` is the page's stated `numTracks` value or the default 0, and
every entry of its `tracks` list is a record carrying a `position` field
(the stated value or 0, by `buildLdTrack_ok`); when the block is absent
or unparseable these fields are omitted. -/
theorem C6_numeric_fields (loads : String → Option Val) (url : String) (soup : Soup)
    (el : Elem) (s : String) (o : List (String × Val)) (r : Rec)
    (h1 : selectOne soup ldSelector = some el) (h2 : el.strContent = some s)
    (h3 : loads s = some (.obj o)) (h4 : get_album loads url soup = .ok r) :
    r.get? "num_tracks" = some (lget o "numTracks" (.num 0)) ∧
    ∃ trs, r.get? "tracks" = some (.arr trs) ∧
      ∀ tr ∈ trs, ∃ ro, tr = .obj ro ∧ ∃ p, Rec.get? ro "position" = some p := by
  unfold get_album at h4
  dsimp only at h4
  have hld : ldStep loads soup albumFromLd [("url", Val.str url)] =
      albumFromLd o [("url", Val.str url)] := by
    simp [ldStep, h1, h2, h3]
  rw [hld] at h4
  cases halb : albumFromLd o [("url", Val.str url)] with
  | error e => rw [halb] at h4; simp at h4
  | ok album =>
  rw [halb] at h4
  obtain ⟨hnum, trs0, htrk, hpos⟩ := albumFromLd_fields o _ album halb
  simp at h4
  subst h4
  refine ⟨?_, trs0, ?_, hpos⟩
  · repeat' split
    all_goals simp [Rec.get?_set, hnum]
  · repeat' split
    all_goals simp [Rec.get?_set, htrk]

/-- Witness for C6 (amended) at a concrete input: one track without a
`position` key defaults to position 0, and a page without `numTracks`
defaults to 0 tracks. -/
theorem C6_numeric_fields_witness :
    ∃ r, get_album
        (fun s => if s = "LD6" then
          some (.obj [("name", .str "A"),
                      ("track", .obj [("itemListElement",
                        .arr [.obj [("item", .obj [("name", .str "T1")])]])])])
          else none)
        "u" (soupLd "LD6") = .ok r ∧
      r.get? "num_tracks" = some (.num 0) ∧
      ∃ trs, r.get? "tracks" = some (.arr trs) ∧
        ∀ tr ∈ trs, ∃ ro, tr = .obj ro ∧ ∃ p, Rec.get? ro "position" = some p := by
  refine ⟨_, rfl, ?_⟩
  have h := C6_numeric_fields
    (fun s => if s = "LD6" then
      some (.obj [("name", .str "A"),
                  ("track", .obj [("itemListElement",
                    .arr [.obj [("item", .obj [("name", .str "T1")])]])])])
      else none)
    "u" (soupLd "LD6") (Elem.mk "" [] (some "LD6") (fun _ => []))
    "LD6"
    [("name", .str "A"),
     ("track", .obj [("itemListElement", .arr [.obj [("item", .obj [("name", .str "T1")])]])])]
    _ rfl rfl rfl rfl
  exact h
